import Mathlib

/-!
Shallow embedding of the simboba eval harness (boba.py, judge.py, runner.py)
and proofs about its executor, judges and case processor.

Python-level conventions used throughout:
- a Python function that can raise is embedded as a function into
  `Except String α`, the error carrying `str(e)`;
- `dict` metadata values are abstracted as association lists `Metadata`;
- CPython string/float primitives are embedded by structurally recursive
  functions over `List Char` (ASCII-faithful), and the float comparison and
  score arithmetic of the source are modelled exactly over `ℚ`;
- wall-clock timestamps (`created_at`, `started_at`, ...) are not modelled.
-/

deriving instance DecidableEq for Except

/-- Python `str.lower()` (ASCII-faithful model). -/
def pyLower (s : String) : String := ⟨s.data.map Char.toLower⟩

/-- Python `str.upper()` (ASCII-faithful model). -/
def pyUpper (s : String) : String := ⟨s.data.map Char.toUpper⟩

/-- Helper for `pySplitWs`: split on whitespace, accumulating the current word. -/
def pySplitWsAux : List Char → List Char → List String
  | [], acc => if acc = [] then [] else [⟨acc.reverse⟩]
  | c :: cs, acc =>
    if c.isWhitespace then
      (if acc = [] then pySplitWsAux cs [] else ⟨acc.reverse⟩ :: pySplitWsAux cs [])
    else pySplitWsAux cs (c :: acc)

/-- Python `str.split()` with no argument: split on whitespace runs, dropping
empty fragments. -/
def pySplitWs (s : String) : List String := pySplitWsAux s.data []

/-- Helper for `pySplitOnComma`: Python `str.split(",")`, which keeps empty
fragments. -/
def pySplitCommaAux : List Char → List Char → List String
  | [], acc => [⟨acc.reverse⟩]
  | c :: cs, acc =>
    if c = ',' then ⟨acc.reverse⟩ :: pySplitCommaAux cs [] else pySplitCommaAux cs (c :: acc)

/-- Python `str.split(",")`. -/
def pySplitOnComma (s : String) : List String := pySplitCommaAux s.data []

/-- Python `str.strip()`: drop leading and trailing whitespace. -/
def pyStrip (s : String) : String :=
  ⟨((s.data.dropWhile Char.isWhitespace).reverse.dropWhile Char.isWhitespace).reverse⟩

/-- Code-point comparison of strings, as Python `<` on `str` (used by `sorted`). -/
def charListLe : List Char → List Char → Bool
  | [], _ => true
  | _ :: _, [] => false
  | a :: as, b :: bs => if a = b then charListLe as bs else decide (a < b)

/-- Insert into a sorted list of strings (helper for `pySorted`). -/
def insertSorted (x : String) : List String → List String
  | [] => [x]
  | y :: ys => if charListLe x.data y.data then x :: y :: ys else y :: insertSorted x ys

/-- Python `sorted` on a list of strings (insertion sort; code-point order). -/
def pySorted (l : List String) : List String := l.foldr insertSorted []

/-- Python `needle in hay` substring membership on `str`. -/
def pyInAux (n : List Char) : List Char → Bool
  | [] => n.isEmpty
  | c :: rest => n.isPrefixOf (c :: rest) || pyInAux n rest

/-- Python `needle in hay` on strings. -/
def pyIn (needle hay : String) : Bool := pyInAux needle.data hay.data

/-- Digit-string value (helper for `pyInt?`). -/
def digitsVal : List Char → Option Nat
  | [] => none
  | cs =>
    cs.foldl
      (fun acc c =>
        match acc with
        | none => none
        | some n => if c.isDigit then some (n * 10 + (c.toNat - 48)) else none)
      (some 0)

/-- Python `int(s)` for decimal strings: optional surrounding whitespace,
optional sign, at least one digit; `none` models `ValueError`. -/
def pyInt? (s : String) : Option Int :=
  match (pyStrip s).data with
  | '-' :: rest => (digitsVal rest).map (fun n => -(n : Int))
  | '+' :: rest => (digitsVal rest).map (fun n => (n : Int))
  | cs => (digitsVal cs).map (fun n => (n : Int))

/-- Python truthiness of an `Optional[str]`: `None` and `""` are falsy. -/
def pyTruthyStr (o : Option String) : Bool :=
  match o with
  | some s => s ≠ ""
  | none => false

/-- Stand-in for a Python `dict` of structured metadata. -/
abbrev Metadata := List (String × String)

/-- Python truthiness of an `Optional[dict]`: `None` and `{}` are falsy. -/
def pyTruthyMeta (o : Option Metadata) : Bool :=
  match o with
  | some m => m ≠ []
  | none => false

/-- Concatenate strings with a separator (Python `sep.join(...)`). -/
def joinSep (sep : String) : List String → String
  | [] => ""
  | [x] => x
  | x :: xs => x ++ sep ++ joinSep sep xs

/-- Simple model of `json.dumps` on the `Metadata` abstraction. -/
def jsonDumps (m : Metadata) : String :=
  "\x7b" ++ joinSep ", " (m.map (fun kv => "\x22" ++ kv.1 ++ "\x22: \x22" ++ kv.2 ++ "\x22")) ++ "\x7d"

/-- One conversation turn (`schemas.MessageInput`; `attachments`/`created_at`
are never read by the executor and are omitted). -/
structure MessageInput where
  role : String
  message : String
  metadata : Option Metadata := none
  deriving DecidableEq, Repr, Inhabited

/-- Return value of an agent callable: plain text or `schemas.AgentResponse`. -/
inductive AgentRet where
  | text (s : String)
  | response (output : String) (metadata : Option Metadata)
  deriving DecidableEq, Repr, Inhabited

/-- Agent callable (`boba.AgentCallable`); may raise. -/
abbrev Agent := List MessageInput → Except String AgentRet

/-- Judge callable contract: `(inputs, expected_outcome, actual_output,
expected_metadata, actual_metadata) -> (passed, reasoning)`. The
`actual_output` argument is `Option String` because `Boba._process_case`
passes the raw agent output, which can be `None`; a Python judge may raise,
hence `Except`. -/
abbrev Judge :=
  List MessageInput → String → Option String → Option Metadata → Option Metadata →
    Except String (Bool × String)

/-- Deterministic metadata checker (`boba.MetadataChecker`). -/
abbrev Checker := Option Metadata → Option Metadata → Bool

/-- Stop-word set of `judge.create_simple_judge` (judge.py line 76). -/
def stop_words : List String :=
  ["the", "a", "an", "is", "are", "should", "must", "will", "and", "or", "to", "be"]

/-- The judge closure returned by `judge.create_simple_judge` (judge.py lines
59-89), on a non-`None` `actual_output`. Python `set`s are modelled as
deduplicated lists; the float comparison `overlap_ratio >= 0.3` is modelled
exactly over `ℚ`. -/
def simple_judge (_inputs : List MessageInput) (expected_outcome : String)
    (actual_output : String) (_expected_metadata _actual_metadata : Option Metadata) :
    Bool × String :=
  let expected_lower := pyLower expected_outcome
  let actual_lower := pyLower actual_output
  let expected_words := ((pySplitWs expected_lower).dedup).filter (fun w => w ∉ stop_words)
  let actual_words := ((pySplitWs actual_lower).dedup).filter (fun w => w ∉ stop_words)
  if expected_words = [] then
    (true, "No specific requirements to check")
  else
    let overlap := expected_words.filter (fun w => w ∈ actual_words)
    let overlapFrac : ℚ := (overlap.length : ℚ) / (expected_words.length : ℚ)
    let passed := decide ((3 : ℚ) / 10 ≤ overlapFrac)
    (passed,
      "Found " ++ toString overlap.length ++ "/" ++ toString expected_words.length ++
        " expected terms in output")

/-- `judge.create_simple_judge` as a `Judge` value: calling the closure with
`actual_output = None` raises `AttributeError` at `actual_output.lower()`. -/
def create_simple_judge : Judge := fun inputs expected_outcome actual_output em am =>
  match actual_output with
  | some s => .ok (simple_judge inputs expected_outcome s em am)
  | none => .error "AttributeError: \x27NoneType\x27 object has no attribute \x27lower\x27"

/-- `prompts.judge.format_conversation`. -/
def format_conversation (inputs : List MessageInput) : String :=
  joinSep "\n"
    (inputs.flatMap (fun msg =>
      (pyUpper msg.role ++ ": " ++ msg.message) ::
        (if pyTruthyMeta msg.metadata then
          ["  [metadata: " ++ jsonDumps (msg.metadata.getD []) ++ "]"]
        else [])))

/-- Render of `None` by Python string formatting. -/
def pyStrOpt (o : Option String) : String :=
  match o with
  | some s => s
  | none => "None"

/-- `prompts.judge.build_judge_prompt`: the `JUDGE_PROMPT` template with the
placeholders substituted (literal braces of the template written via
escapes). -/
def build_judge_prompt (inputs : List MessageInput) (expected_outcome : String)
    (actual_output : Option String)
    (expected_metadata actual_metadata : Option Metadata) : String :=
  let conversation := format_conversation inputs
  let expected_metadata_section :=
    if pyTruthyMeta expected_metadata then
      "\n## Expected Metadata\n```json\n" ++ jsonDumps (expected_metadata.getD []) ++ "\n```\n"
    else ""
  let actual_metadata_section :=
    if pyTruthyMeta actual_metadata then
      "\n## Actual Metadata\n```json\n" ++ jsonDumps (actual_metadata.getD []) ++ "\n```\n"
    else ""
  "You are an expert evaluator judging whether an AI agent\x27s output meets the expected outcome.\n\n## Conversation Context\n"
    ++ conversation
    ++ "\n\n## Expected Outcome\n"
    ++ expected_outcome
    ++ expected_metadata_section
    ++ "\n## Actual Output\n"
    ++ pyStrOpt actual_output
    ++ actual_metadata_section
    ++ "\n## Your Task\nEvaluate whether the actual output satisfies the expected outcome. Consider:\n1. Does the output achieve what was expected?\n2. Are all the criteria in the expected outcome met?\n3. Is the behavior appropriate given the conversation context?\n4. If expected metadata is provided, does the actual metadata match? (e.g., correct tool calls, citations)\n\nRespond with a JSON object in this exact format:\n```json\n\x7b\n  \x22passed\x22: true or false,\n  \x22reasoning\x22: \x22Your detailed explanation of why this passed or failed\x22\n\x7d\n```\n\nBe strict but fair. Minor differences in wording are acceptable if the intent is met.\nOnly output the JSON object, nothing else."

/-- A JSON leaf value as far as the oracle judge inspects one. -/
inductive JVal where
  | jbool (b : Bool)
  | jstr (s : String)
  deriving DecidableEq, Repr

/-- Python truthiness of a JSON leaf (`bool(...)`). -/
def JVal.truthy : JVal → Bool
  | .jbool b => b
  | .jstr s => s ≠ ""

/-- Parsed JSON object returned by `LLMClient.generate_json`, restricted to
the two fields `judge.create_judge` reads (a string-valued `reasoning` is
assumed). -/
structure OracleJson where
  passedField : Option JVal
  reasoningField : Option String
  deriving DecidableEq, Repr

/-- Outcome oracle for `LLMClient.generate_json(prompt)`: `.error e` models
any exception (network failure or `json` parse failure) with `str(e) = e`. -/
abbrev GenJson := String → Except String OracleJson

/-- The judge closure returned by `judge.create_judge` (judge.py lines 22-47),
with the LLM call abstracted by `gen`. On an exception it does NOT
unconditionally fail: it greps the error text for `"passed"` and `"true"`. -/
def create_judge (gen : GenJson) : Judge :=
  fun inputs expected_outcome actual_output expected_metadata actual_metadata =>
    let prompt :=
      build_judge_prompt inputs expected_outcome actual_output expected_metadata actual_metadata
    match gen prompt with
    | .ok result =>
      let passed := ((result.passedField.getD (.jbool false)).truthy)
      let reasoning := result.reasoningField.getD "No reasoning provided"
      .ok (passed, reasoning)
    | .error e =>
      let response_text := e
      let passed :=
        pyIn "passed" (pyLower response_text) && pyIn "true" (pyLower response_text)
      .ok (passed, "Could not parse judge response: " ++ response_text)

/-- Which judge implementation `Boba._get_judge` resolved to. -/
inductive JudgeKind where
  | oracle
  | simple
  deriving DecidableEq, Repr

/-- The parameter names accepted by `judge.create_judge` (judge.py line 9:
`def create_judge(model: Optional[str] = None)`). -/
def create_judge_param_names : List String := ["model"]

/-- The keyword-argument names `Boba._get_judge` passes in its call
`create_judge(model=model, prompt=prompt)` (boba.py line 52). -/
def get_judge_call_kwarg_names : List String := ["model", "prompt"]

/-- Result of `Boba._get_judge`: which judge is returned, the updated
`_warned_simple_judge` instance flag, and whether the fallback warning was
printed on this call. -/
structure GetJudgeRes where
  kind : JudgeKind
  warned_after : Bool
  printed_warning : Bool
  deriving DecidableEq, Repr

/-- `Boba._get_judge` (boba.py lines 39-60). `env_ok` abstracts the success of
the statements `from simboba.judge import create_judge` and
`storage.get_setting("model")` inside the `try` block. `LLMClient.__init__`
performs no credential check, so given `env_ok` the only remaining failure
mode of the `try` block is the call `create_judge(model=model, prompt=prompt)`
itself, which raises `TypeError` exactly when one of its keyword arguments is
not among `create_judge`'s parameters; any exception lands in the `except`
branch, which warns once per instance and returns the simple judge. -/
def Boba.get_judge (env_ok warned warn : Bool) (_prompt : Option String) : GetJudgeRes :=
  let try_result : Except Unit JudgeKind :=
    if !env_ok then .error ()
    else if !(get_judge_call_kwarg_names.all (fun k => create_judge_param_names.contains k)) then
      .error ()
    else .ok .oracle
  match try_result with
  | .ok k => { kind := k, warned_after := warned, printed_warning := false }
  | .error _ =>
    let printed := warn && !warned
    { kind := .simple, warned_after := warned || printed, printed_warning := printed }

/-- The judge function corresponding to a resolved `JudgeKind`. -/
def judge_of_kind (gen : GenJson) : JudgeKind → Judge
  | .oracle => create_judge gen
  | .simple => create_simple_judge

/-- One dataset case as the executor reads it (`case.get(...)` accesses;
`id`/`name` may be absent from a raw case dict). -/
structure Case where
  id : Option String
  name : Option String
  inputs : List MessageInput
  expected_outcome : String
  expected_metadata : Option Metadata
  deriving DecidableEq, Repr, Inhabited

/-- The case snapshot `_process_case` embeds in its result record. -/
structure CaseEcho where
  id : String
  name : Option String
  inputs : List MessageInput
  expected_outcome : String
  deriving DecidableEq, Repr, Inhabited

/-- The per-case result dict built by `Boba._process_case` (`created_at` not
modelled). -/
structure CaseResultRec where
  case_id : String
  passed : Bool
  actual_output : Option String
  judgment : String
  reasoning : String
  error_message : Option String
  expected_metadata : Option Metadata
  actual_metadata : Option Metadata
  metadata_passed : Option Bool
  case_info : CaseEcho
  deriving DecidableEq, Repr, Inhabited

/-- The dict returned by `Boba._process_case`. -/
structure ProcOut where
  case_id : String
  case_name : Option String
  passed : Bool
  result : CaseResultRec
  deriving DecidableEq, Repr, Inhabited

/-- `Boba._process_case` (boba.py lines 159-240). `gen_id` stands for the
fresh `storage.generate_id()` value used when the case dict has no `id`;
the pydantic `MessageInput(**inp)` validation is modelled as the identity, so
the agent and the judge receive the same `inputs` list. A judge exception
propagates (the `Except` bind), exactly as in the source. -/
def Boba.process_case (gen_id : String) (c : Case) (agent : Agent)
    (judge_fn : Judge) (metadata_checker : Option Checker) : Except String ProcOut :=
  let case_id := c.id.getD gen_id
  let inputs := c.inputs
  let (output, actual_metadata, error_message) :=
    match agent inputs with
    | .ok (.text s) => (some s, (none : Option Metadata), (none : Option String))
    | .ok (.response o m) => (some o, m, none)
    | .error e => (none, none, some e)
  let expected_metadata := c.expected_metadata
  (if pyTruthyStr error_message then
      pure (false, "Error: " ++ error_message.getD "", (none : Option Bool))
    else do
      let (output_passed, reasoning) ←
        judge_fn inputs c.expected_outcome output expected_metadata actual_metadata
      match metadata_checker with
      | some mc =>
        let mp := mc expected_metadata actual_metadata
        pure (output_passed && mp, reasoning, some mp)
      | none => pure (output_passed, reasoning, (none : Option Bool))) >>=
    fun (passed, reasoning, metadata_passed) =>
    Except.ok
      { case_id := case_id
        case_name := c.name
        passed := passed
        result :=
          { case_id := case_id
            passed := passed
            actual_output := if pyTruthyStr output then output else none
            judgment := if passed then "PASS" else "FAIL"
            reasoning := reasoning
            error_message := error_message
            expected_metadata := expected_metadata
            actual_metadata := actual_metadata
            metadata_passed := metadata_passed
            case_info :=
              { id := case_id
                name := c.name
                inputs := inputs
                expected_outcome := c.expected_outcome } } }

/-- The run record `Boba.eval`/`Boba.run` keep in the store (timestamps not
modelled; `filename` is the id `storage.save_run` assigns on first save). -/
structure RunRec where
  dataset_id : String
  dataset_name : String
  eval_name : String
  status : String
  total : Nat
  passed : Nat
  failed : Nat
  results : List (String × CaseResultRec)
  score : Option ℚ
  filename : String
  deriving DecidableEq, Repr, Inhabited

/-- Python dict assignment `run["results"][case_id] = result`: keyed
overwrite, insertion at the end for a fresh key. -/
def dict_set (m : List (String × CaseResultRec)) (k : String) (v : CaseResultRec) :
    List (String × CaseResultRec) :=
  if m.any (fun p => p.1 = k) then m.map (fun p => if p.1 = k then (k, v) else p)
  else m ++ [(k, v)]

/-- Folding one completed case result into the shared run state (the body of
the per-case critical section of `Boba.run`). -/
def fold_result (st : RunRec) (rd : ProcOut) : RunRec :=
  { st with
    results := dict_set st.results rd.case_id rd.result
    passed := if rd.passed then st.passed + 1 else st.passed
    failed := if rd.passed then st.failed else st.failed + 1 }

/-- `SAVE_INTERVAL` of `Boba.run`'s parallel branch (boba.py line 349). -/
def SAVE_INTERVAL : Nat := 5

/-- Sequential branch of `Boba.run` (boba.py lines 386-407): process cases in
dataset order and persist the run after every case. Returns the final state
and the list of store snapshots written by `storage.save_run` inside the
loop. -/
def Boba.seq_loop (gen_id : String) (agent : Agent) (judge_fn : Judge)
    (metadata_checker : Option Checker) :
    RunRec → List Case → Except String (RunRec × List RunRec)
  | st, [] => .ok (st, [])
  | st, c :: rest => do
    let rd ← Boba.process_case gen_id c agent judge_fn metadata_checker
    let st1 := fold_result st rd
    let (stF, saves) ← Boba.seq_loop gen_id agent judge_fn metadata_checker st1 rest
    .ok (stF, st1 :: saves)

/-- Parallel branch of `Boba.run` (boba.py lines 345-381): fold completed
results in completion order under the lock, incrementing `save_counter` and
persisting every `SAVE_INTERVAL`-th completion. The list argument is the
completion order of the submitted futures (`as_completed`). Returns the final
state and the store snapshots written inside the loop. -/
def Boba.par_loop (gen_id : String) (agent : Agent) (judge_fn : Judge)
    (metadata_checker : Option Checker) :
    RunRec → Nat → List Case → Except String (RunRec × List RunRec)
  | st, _, [] => .ok (st, [])
  | st, save_counter, c :: rest => do
    let rd ← Boba.process_case gen_id c agent judge_fn metadata_checker
    let st1 := fold_result st rd
    let save_counter1 := save_counter + 1
    let (stF, saves) ← Boba.par_loop gen_id agent judge_fn metadata_checker st1 save_counter1 rest
    .ok (stF, (if save_counter1 % SAVE_INTERVAL = 0 then [st1] else []) ++ saves)

/-- A dataset as returned by `storage.get_dataset`. -/
structure Dataset where
  id : String
  name : String
  cases : List Case
  deriving DecidableEq, Repr, Inhabited

/-- A stored baseline: its per-case result map (only `passed` is consulted by
the diff). -/
structure Baseline where
  results : List (String × CaseResultRec)
  deriving DecidableEq, Repr, Inhabited

/-- Regression/fix diff of a run against a baseline. -/
structure Comparison where
  has_baseline : Bool
  regressions : List String
  fixes : List String
  deriving DecidableEq, Repr, Inhabited

/-- Modelled from the spec: `storage.compare_run_to_baseline` belongs to the
`simboba.storage` module, which is absent from the provided sources. Per spec
§4.4: with no baseline, `has_baseline=false` and empty lists; otherwise, for
every case id present in both result maps, baseline-pass/current-fail is a
regression and baseline-fail/current-pass is a fix. -/
def compare_run_to_baseline (run : RunRec) (baseline : Option Baseline) : Comparison :=
  match baseline with
  | none => { has_baseline := false, regressions := [], fixes := [] }
  | some b =>
    { has_baseline := true
      regressions :=
        (run.results.filter (fun p =>
          match b.results.lookup p.1 with
          | some br => br.passed && !p.2.passed
          | none => false)).map (fun p => p.1)
      fixes :=
        (run.results.filter (fun p =>
          match b.results.lookup p.1 with
          | some br => !br.passed && p.2.passed
          | none => false)).map (fun p => p.1) }

/-- The summary dict returned by `Boba.run`. -/
structure RunSummary where
  passed : Nat
  failed : Nat
  total : Nat
  score : ℚ
  run_id : String
  regressions : List String
  fixes : List String
  deriving DecidableEq, Repr, Inhabited

/-- Case-id resolution of `Boba.run` (boba.py lines 294-298): the explicit
argument takes precedence over the `BOBA_CASE_IDS` environment value, which is
consulted only when the argument is `None` and is itself subject to Python
truthiness (an empty string is ignored) and comma-split-strip parsing. -/
def Boba.resolve_case_ids (case_ids : Option (List String)) (env_case_ids : Option String) :
    Option (List String) :=
  match case_ids with
  | some l => some l
  | none =>
    match env_case_ids with
    | some e =>
      if e ≠ "" then some (((pySplitOnComma e).map pyStrip).filter (fun s => s ≠ ""))
      else none
    | none => none

/-- Case filtering of `Boba.run` (boba.py lines 300-309): applied only when a
non-empty id list was resolved; unknown ids fail fast with every unknown id
enumerated (Python `sorted(set)` order) before any case executes. -/
def Boba.filter_cases (dataset : String) (cases : List Case)
    (case_ids : Option (List String)) : Except String (List Case) :=
  match case_ids with
  | some l =>
    if l.length > 0 then
      let available_ids := cases.map (fun c => c.id)
      let unknown_ids := (l.filter (fun cid => !available_ids.contains (some cid))).dedup
      if unknown_ids ≠ [] then
        .error ("Case IDs not found in dataset \x27" ++ dataset ++ "\x27: " ++
          joinSep ", " (pySorted unknown_ids))
      else
        .ok (cases.filter (fun c =>
          match c.id with
          | some i => l.contains i
          | none => false))
    else .ok cases
  | none => .ok cases

/-- Worker-count resolution of `Boba.run` (boba.py lines 311-318): explicit
argument, else the `BOBA_MAX_WORKERS` environment value when truthy and
`int()`-parsable (a `ValueError` is swallowed, leaving `None`). -/
def Boba.resolve_max_workers (max_workers : Option Int) (env_max_workers : Option String) :
    Option Int :=
  match max_workers with
  | some w => some w
  | none =>
    match env_max_workers with
    | some e =>
      if e ≠ "" then
        match pyInt? e with
        | some w => some w
        | none => none
      else none
    | none => none

/-- Execution phase of `Boba.run` (boba.py lines 322-446) on the selected
`cases`: create and persist the initial `running` record, run the sequential
or the parallel loop, persist after the pool drains (parallel only), finalize
with status/score, persist once more, diff against the baseline and build the
summary. The second component is the trace of `storage.save_run` snapshots. -/
def Boba.run_exec (gen_id : String) (sched : List Case → List Case)
    (assigned_filename : String) (baseline : Option Baseline)
    (agent : Agent) (judge_fn : Judge) (metadata_checker : Option Checker)
    (ds : Dataset) (name : Option String) (cases : List Case) (use_parallel : Bool) :
    Except String (RunSummary × List RunRec) :=
  let run0 : RunRec :=
    { dataset_id := ds.id
      dataset_name := ds.name
      eval_name := name.getD ("eval-" ++ ds.name)
      status := "running"
      total := cases.length
      passed := 0
      failed := 0
      results := []
      score := none
      filename := assigned_filename }
  let looped : Except String (RunRec × List RunRec) :=
    if use_parallel then
      match Boba.par_loop gen_id agent judge_fn metadata_checker run0 0 (sched cases) with
      | .error e => .error e
      | .ok (st, loop_saves) => .ok (st, loop_saves ++ [st])
    else
      Boba.seq_loop gen_id agent judge_fn metadata_checker run0 cases
  match looped with
  | .error e => .error e
  | .ok (st, loop_saves) =>
    let score : ℚ :=
      if cases ≠ [] then (st.passed : ℚ) / (cases.length : ℚ) * 100 else 0
    let stF := { st with status := "completed", score := some score }
    let comparison := compare_run_to_baseline stF baseline
    .ok
      ({ passed := st.passed
         failed := st.failed
         total := cases.length
         score := score
         run_id := stF.filename
         regressions := comparison.regressions
         fixes := comparison.fixes },
       (run0 :: loop_saves) ++ [stF])

/-- `Boba.run` (boba.py lines 242-446). External collaborators appear as
parameters: `env_ok`/`warned` feed `_get_judge`; `gen` abstracts the LLM call
of the oracle judge; `gen_id` stands for fresh ids from
`storage.generate_id()`; `sched` gives the completion order `as_completed`
yields in parallel mode (ignored by the sequential branch); `env_case_ids` and
`env_max_workers` are the raw values of the `BOBA_CASE_IDS` and
`BOBA_MAX_WORKERS` environment variables; `assigned_filename` is the id the
store assigns at the initial `storage.save_run`; `ds_lookup` is the result of
`storage.get_dataset(dataset)`; `baseline` of `storage.get_baseline`. The
second component of the result is the full trace of `storage.save_run`
snapshots. -/
def Boba.run (env_ok warned : Bool) (gen : GenJson) (gen_id : String)
    (sched : List Case → List Case)
    (env_case_ids env_max_workers : Option String)
    (assigned_filename : String) (baseline : Option Baseline)
    (agent : Agent) (dataset : String) (ds_lookup : Option Dataset)
    (name : Option String) (metadata_checker : Option Checker)
    (judge_prompt : Option String)
    (case_ids : Option (List String)) (max_workers : Option Int) :
    Except String (RunSummary × List RunRec) :=
  match ds_lookup with
  | none => .error ("Dataset \x27" ++ dataset ++ "\x27 not found")
  | some ds =>
    if ds.cases = [] then .error ("Dataset \x27" ++ dataset ++ "\x27 has no cases")
    else
      match Boba.filter_cases dataset ds.cases (Boba.resolve_case_ids case_ids env_case_ids) with
      | .error e => .error e
      | .ok cases =>
        let use_parallel :=
          match Boba.resolve_max_workers max_workers env_max_workers with
          | some w => decide (w > 1)
          | none => false
        let judge_fn := judge_of_kind gen (Boba.get_judge env_ok warned true judge_prompt).kind
        Boba.run_exec gen_id sched assigned_filename baseline agent judge_fn
          metadata_checker ds name cases use_parallel

/-- A case dict as `runner.run_case` reads it (`id`, `inputs`,
`expected_outcome` are accessed by subscript, hence required). -/
structure RCase where
  id : Int
  inputs : List MessageInput
  expected_outcome : String
  deriving DecidableEq, Repr, Inhabited

/-- `runner.CaseResult` (execution_time_ms not modelled: wall-clock). -/
structure RCaseResult where
  case_id : Int
  passed : Bool
  actual_output : Option String
  judgment : Option String
  reasoning : Option String
  error_message : Option String
  deriving DecidableEq, Repr, Inhabited

/-- `runner.RunResult`. -/
structure RRunResult where
  passed : Nat
  failed : Nat
  total : Nat
  score : ℚ
  results : List RCaseResult
  deriving DecidableEq, Repr, Inhabited

/-- The judge callable as `runner.run_case` invokes it (three positional
arguments); may raise. -/
abbrev RJudge := List MessageInput → String → String → Except String (Bool × String)

/-- `runner.run_case` (runner.py lines 130-177). `eval_run` abstracts
`eval_config.run(inputs)` (the user eval function; may raise). Both the eval
call and the judge call sit inside the same `try`, so a judge exception is
also captured as an error result here. -/
def Runner.run_case (eval_run : RCase → Except String String) (judge_fn : Option RJudge)
    (c : RCase) : RCaseResult :=
  let body : Except String (String × Bool × Option String × Option String) := do
    let actual_output ← eval_run c
    match judge_fn with
    | some j => do
      let (passed, reasoning) ← j c.inputs c.expected_outcome actual_output
      .ok (actual_output, passed, some (if passed then "PASS" else "FAIL"), some reasoning)
    | none => .ok (actual_output, false, none, none)
  match body with
  | .ok (actual_output, passed, judgment, reasoning) =>
    { case_id := c.id
      passed := passed
      actual_output := some actual_output
      judgment := judgment
      reasoning := reasoning
      error_message := none }
  | .error e =>
    { case_id := c.id
      passed := false
      actual_output := none
      judgment := none
      reasoning := none
      error_message := some e }

/-- One iteration of the `runner.run_eval` loop: append the case result and
bump exactly one counter (`if result.error_message: failed elif result.passed:
passed else: failed`; Python truthiness on `error_message`). -/
def Runner.run_eval_step (eval_run : RCase → Except String String) (judge_fn : Option RJudge)
    (acc : List RCaseResult × Nat × Nat) (c : RCase) : List RCaseResult × Nat × Nat :=
  let result := Runner.run_case eval_run judge_fn c
  let (results, passed, failed) := acc
  if pyTruthyStr result.error_message then (results ++ [result], passed, failed + 1)
  else if result.passed then (results ++ [result], passed + 1, failed)
  else (results ++ [result], passed, failed + 1)

/-- `runner.run_eval` (runner.py lines 180-215). -/
def Runner.run_eval (eval_run : RCase → Except String String) (judge_fn : Option RJudge)
    (cases : List RCase) : RRunResult :=
  let (results, passed, failed) :=
    cases.foldl (Runner.run_eval_step eval_run judge_fn) ([], 0, 0)
  let total := cases.length
  let score : ℚ := if total > 0 then (passed : ℚ) / (total : ℚ) * 100 else 0
  { passed := passed, failed := failed, total := total, score := score, results := results }

/-- The output text carried by an agent return value. -/
def AgentRet.outputOf : AgentRet → String
  | .text s => s
  | .response o _ => o

/-- The metadata carried by an agent return value (`None` for plain text). -/
def AgentRet.metaOf : AgentRet → Option Metadata
  | .text _ => none
  | .response _ m => m

/-- The per-case result dict built by `Boba.eval` (its field set differs from
`_process_case`'s; `created_at` not modelled). -/
structure EvalCaseRec where
  case_id : String
  inputs : List MessageInput
  expected_outcome : String
  passed : Bool
  actual_output : String
  judgment : String
  reasoning : String
  expected_metadata : Option Metadata
  actual_metadata : Option Metadata
  metadata_passed : Option Bool
  deriving DecidableEq, Repr, Inhabited

/-- The run record `Boba.eval` persists under the ad-hoc dataset id. -/
structure EvalRunRec where
  dataset_id : String
  dataset_name : String
  eval_name : String
  status : String
  total : Nat
  passed : Nat
  failed : Nat
  results : List (String × EvalCaseRec)
  score : Option ℚ
  filename : String
  deriving DecidableEq, Repr, Inhabited

/-- The dict returned by `Boba.eval`. -/
structure EvalSummary where
  passed : Bool
  reasoning : String
  run_id : String
  deriving DecidableEq, Repr, Inhabited

/-- `Boba.eval` (boba.py lines 65-157): judge a single input/output pair,
apply the optional deterministic metadata gate, store a one-case completed run
under the fixed `_adhoc` dataset id and return `passed`/`reasoning`/`run_id`.
`case_id` stands for the fresh `storage.generate_id()` value and
`assigned_filename` for the filename `storage.save_run` assigns; a judge
exception would propagate, hence the `Except`. -/
def Boba.eval (env_ok warned : Bool) (gen : GenJson) (case_id assigned_filename : String)
    (input output expected : String) (name : Option String)
    (expected_metadata actual_metadata : Option Metadata)
    (metadata_checker : Option Checker) (judge_prompt : Option String) :
    Except String (EvalSummary × EvalRunRec) := do
  let run0 : EvalRunRec :=
    { dataset_id := "_adhoc", dataset_name := "_adhoc",
      eval_name := name.getD "single-eval", status := "running", total := 1, passed := 0,
      failed := 0, results := [], score := none, filename := assigned_filename }
  let judge_fn := judge_of_kind gen (Boba.get_judge env_ok warned true judge_prompt).kind
  let inputs : List MessageInput := [{ role := "user", message := input }]
  let (output_passed, reasoning) ←
    judge_fn inputs expected (some output) expected_metadata actual_metadata
  let (metadata_passed, passed) :=
    match metadata_checker with
    | some mc =>
      let mp := mc expected_metadata actual_metadata
      (some mp, output_passed && mp)
    | none => ((none : Option Bool), output_passed)
  let result : EvalCaseRec :=
    { case_id := case_id, inputs := inputs, expected_outcome := expected, passed := passed,
      actual_output := output, judgment := if passed then "PASS" else "FAIL",
      reasoning := reasoning, expected_metadata := expected_metadata,
      actual_metadata := actual_metadata, metadata_passed := metadata_passed }
  let run1 :=
    { run0 with
      results := [(case_id, result)], status := "completed",
      passed := if passed then 1 else 0, failed := if passed then 0 else 1,
      score := some (if passed then (100 : ℚ) else 0) }
  .ok ({ passed := passed, reasoning := reasoning, run_id := assigned_filename }, run1)

/-- The pass verdict of processing one case (false if `_process_case` raised);
used to state counter invariants of the executor loops. -/
def proc_passed (gid : String) (agent : Agent) (judge_fn : Judge) (mc : Option Checker)
    (c : Case) : Bool :=
  match Boba.process_case gid c agent judge_fn mc with
  | .ok rd => rd.passed
  | .error _ => false

/-- Six trivial cases with distinct ids (concrete durability example). -/
def six_cases : List Case :=
  [{ id := some "a", name := none, inputs := [], expected_outcome := "", expected_metadata := none },
   { id := some "b", name := none, inputs := [], expected_outcome := "", expected_metadata := none },
   { id := some "c", name := none, inputs := [], expected_outcome := "", expected_metadata := none },
   { id := some "d", name := none, inputs := [], expected_outcome := "", expected_metadata := none },
   { id := some "e", name := none, inputs := [], expected_outcome := "", expected_metadata := none },
   { id := some "f", name := none, inputs := [], expected_outcome := "", expected_metadata := none }]

/-- A total agent for the concrete durability example. -/
def six_agent : Agent := fun _ => Except.ok (AgentRet.text "o")

/-- A total judge for the concrete durability example. -/
def six_judge : Judge := fun _ _ _ _ _ => Except.ok (true, "r")

/-- The parallel loop of the durability example, crashed after 5 completions. -/
def six_loop : Except String (RunRec × List RunRec) :=
  Boba.par_loop "g" six_agent six_judge none default 0 (six_cases.take 5)

/-- The completed parallel execution of the durability example. -/
def six_run : Except String (RunSummary × List RunRec) :=
  Boba.run_exec "g" id "f" none six_agent six_judge none
    { id := "i", name := "n", cases := [] } none six_cases true

/-- Reduction of an `Except` bind on a success value (do-notation unfolding
used throughout the executor proofs). -/
theorem except_ok_bind {ε α β : Type _} (a : α) (f : α → Except ε β) :
    (Except.ok a >>= f : Except ε β) = f a := rfl

/-- Reduction of an `Except` bind on an error value. -/
theorem except_error_bind {ε α β : Type _} (e : ε) (f : α → Except ε β) :
    (Except.error e >>= f : Except ε β) = Except.error e := rfl

/-- Whatever the inputs to `Boba._get_judge`, the judge it hands to the
executor is the simple keyword judge. -/
theorem judge_resolution_simple (env_ok warned warn : Bool) (prompt : Option String)
    (gen : GenJson) :
    judge_of_kind gen (Boba.get_judge env_ok warned warn prompt).kind = create_simple_judge := by
  cases env_ok <;> rfl

/-- C1: the claim states that `_get_judge` returns the oracle judge exactly
when oracle credentials are available. In the source, the call
`create_judge(model=model, prompt=prompt)` passes the keyword `prompt`, which
`create_judge(model=None)` does not accept, so the call raises `TypeError`
before any oracle is constructed and the `except` branch returns the simple
judge (with the "No API key found" warning) even when everything, credentials
included, is available: the first conjunct shows the fallback happens for
every environment, the second evaluates `_get_judge` in a fully-available
environment (`env_ok = true`, nothing warned yet) and shows it still returns
the simple judge and prints the misleading warning. -/
theorem c1_get_judge_always_falls_back_to_simple :
    (∀ (env_ok warned warn : Bool) (prompt : Option String),
      (Boba.get_judge env_ok warned warn prompt).kind = JudgeKind.simple) ∧
    Boba.get_judge true false true none =
      { kind := JudgeKind.simple, warned_after := true, printed_warning := true } := by
  refine ⟨fun env_ok warned warn prompt => ?_, rfl⟩
  cases env_ok <;> rfl

/-- C2: the claim states that whenever the agent raises, the result has a
non-empty `error_message` and the judge is never invoked. Evaluating
`_process_case` at an agent that raises an exception whose `str` is empty
(e.g. `raise ValueError()`): `error_message` is recorded as the empty string,
the `if error_message:` truthiness test fails, and the judge IS invoked (its
reasoning and even a `true` verdict land in the result, with
`actual_output=None` passed to it). -/
theorem c2_empty_error_message_case_is_judged :
    Boba.process_case "gid"
        { id := some "c1", name := none, inputs := [], expected_outcome := "exp",
          expected_metadata := none }
        (fun _ => Except.error "") (fun _ _ _ _ _ => Except.ok (true, "JUDGE WAS CALLED"))
        none =
      Except.ok
        { case_id := "c1", case_name := none, passed := true,
          result :=
            { case_id := "c1", passed := true, actual_output := none, judgment := "PASS",
              reasoning := "JUDGE WAS CALLED", error_message := some "",
              expected_metadata := none, actual_metadata := none, metadata_passed := none,
              case_info :=
                { id := "c1", name := none, inputs := [], expected_outcome := "exp" } } } :=
  rfl

/-- C10: an agent that returns the falsy string `""` without raising yields a
result with `actual_output = None` (like an agent exception) yet
`error_message = None`, and the case is still judged (the judge verdict `jb`
becomes the final `passed`); so `actual_output == None` does not imply the
agent raised. -/
theorem c10_falsy_agent_output_recorded_as_none_but_judged
    (gid : String) (c : Case) (jb : Bool) (jr : String) :
    Boba.process_case gid c (fun _ => Except.ok (AgentRet.text ""))
        (fun _ _ _ _ _ => Except.ok (jb, jr)) none =
      Except.ok
        { case_id := c.id.getD gid, case_name := c.name, passed := jb,
          result :=
            { case_id := c.id.getD gid, passed := jb, actual_output := none,
              judgment := if jb then "PASS" else "FAIL", reasoning := jr,
              error_message := none, expected_metadata := c.expected_metadata,
              actual_metadata := none, metadata_passed := none,
              case_info :=
                { id := c.id.getD gid, name := c.name, inputs := c.inputs,
                  expected_outcome := c.expected_outcome } } } :=
  rfl

/-- C4 counterexample: the claim states that on any LLM-call/parse failure
the oracle judge returns `passed=False`. At an exception whose text is
`"passed: true"` the except-branch keyword grep returns `passed=True`. -/
theorem c4_counterexample_parse_failure_can_pass :
    create_judge (fun _ => Except.error "passed: true") [] "expected" (some "output")
        none none =
      Except.ok (true, "Could not parse judge response: passed: true") :=
  rfl

/-- C4 (amended): on any failure of the LLM call / JSON parsing, the oracle
judge never propagates the exception and returns reasoning
`"Could not parse judge response: " ++ str(e)`; its verdict is not
unconditionally `False` but `True` exactly when the exception text contains
both `"passed"` and `"true"` case-insensitively. -/
theorem c4_oracle_judge_failure_never_raises (gen : GenJson)
    (inputs : List MessageInput) (expected_outcome : String)
    (actual_output : Option String) (em am : Option Metadata) (err : String)
    (h : gen (build_judge_prompt inputs expected_outcome actual_output em am) =
      Except.error err) :
    create_judge gen inputs expected_outcome actual_output em am =
      Except.ok (pyIn "passed" (pyLower err) && pyIn "true" (pyLower err),
        "Could not parse judge response: " ++ err) := by
  simp [create_judge, h]

/-- C4 witness: the amended theorem applied at a concrete failing generation. -/
theorem c4_witness :
    create_judge (fun _ => Except.error "boom") [] "expected" (some "output") none none =
      Except.ok (pyIn "passed" (pyLower "boom") && pyIn "true" (pyLower "boom"),
        "Could not parse judge response: " ++ "boom") :=
  c4_oracle_judge_failure_never_raises (fun _ => Except.error "boom") [] "expected"
    (some "output") none none "boom" rfl

/-- The word list built by the simple judge is duplicate-free. -/
theorem word_set_nodup (l : List String) :
    (l.dedup.filter (fun w => w ∉ stop_words)).Nodup :=
  l.nodup_dedup.filter _

/-- The word list built by the simple judge, as a finite set: the split words
minus the stop words. -/
theorem word_set_toFinset (l : List String) :
    (l.dedup.filter (fun w => w ∉ stop_words)).toFinset =
      l.toFinset \ stop_words.toFinset := by
  ext x
  simp [List.mem_filter, Finset.mem_sdiff]

/-- Cardinality form of `word_set_toFinset`. -/
theorem word_set_length (l : List String) :
    (l.dedup.filter (fun w => w ∉ stop_words)).length =
      (l.toFinset \ stop_words.toFinset).card := by
  rw [← word_set_toFinset l]
  exact (List.toFinset_card_of_nodup (word_set_nodup l)).symm

/-- The overlap list built by the simple judge counts the intersection of the
two word sets. -/
theorem overlap_length (le la : List String) :
    ((le.dedup.filter (fun w => w ∉ stop_words)).filter
        (fun w => w ∈ la.dedup.filter (fun w => w ∉ stop_words))).length =
      ((le.toFinset \ stop_words.toFinset) ∩ (la.toFinset \ stop_words.toFinset)).card := by
  have hnd : ((le.dedup.filter (fun w => w ∉ stop_words)).filter
      (fun w => w ∈ la.dedup.filter (fun w => w ∉ stop_words))).Nodup :=
    (word_set_nodup le).filter _
  rw [← List.toFinset_card_of_nodup hnd]
  congr 1
  ext x
  simp only [List.mem_toFinset, List.mem_filter, decide_eq_true_eq, Finset.mem_inter,
    ← word_set_toFinset, List.mem_dedup]

/-- C3: the simple judge lowercases and splits both texts into word sets,
removes the fixed stop words, passes unconditionally when the expected side
has no remaining words, and otherwise passes exactly when the overlap ratio
`|expected ∩ actual| / |expected|` is at least 3/10 (the source's float
literal `0.3` modelled exactly over `ℚ`). -/
theorem c3_simple_judge_reference_definition (inputs : List MessageInput)
    (expected_outcome actual_output : String) (em am : Option Metadata) :
    (simple_judge inputs expected_outcome actual_output em am).1 =
      decide
        ((pySplitWs (pyLower expected_outcome)).toFinset \ stop_words.toFinset = ∅ ∨
          (3 : ℚ) / 10 ≤
            (((((pySplitWs (pyLower expected_outcome)).toFinset \ stop_words.toFinset) ∩
                ((pySplitWs (pyLower actual_output)).toFinset \ stop_words.toFinset)).card : ℚ) /
              ((((pySplitWs (pyLower expected_outcome)).toFinset \ stop_words.toFinset)).card :
                ℚ))) := by
  simp only [simple_judge]
  by_cases h :
      ((pySplitWs (pyLower expected_outcome)).dedup.filter (fun w => w ∉ stop_words)) = []
  · rw [if_pos h]
    have hE : (pySplitWs (pyLower expected_outcome)).toFinset \ stop_words.toFinset = ∅ := by
      rw [← word_set_toFinset, h, List.toFinset_nil]
    simp [hE]
  · rw [if_neg h]
    have hEne :
        ¬((pySplitWs (pyLower expected_outcome)).toFinset \ stop_words.toFinset = ∅) := by
      rw [← word_set_toFinset, List.toFinset_eq_empty_iff]
      exact h
    rw [decide_eq_decide, overlap_length, word_set_length]
    simp [hEne]

/-- C5: for a non-erroring case (agent returns `ar`, judge verdict `jb`):
with a checker `f` supplied, the final `passed` is the conjunction of the
judge verdict and the checker verdict and `metadata_passed` records the
checker's boolean; with no checker, `metadata_passed` is `None` and `passed`
is exactly the judge verdict — both in `Boba._process_case` and in
`Boba.eval` (where the judge resolves to the simple judge). -/
theorem c5_metadata_gating
    (gid : String) (c : Case) (agent : Agent) (judge_fn : Judge) (f : Checker)
    (ar : AgentRet) (jb : Bool) (jr : String)
    (env_ok warned : Bool) (gen : GenJson) (case_id fn : String)
    (input outp expected : String) (nm : Option String)
    (em am : Option Metadata) (jp : Option String)
    (h_agent : agent c.inputs = Except.ok ar)
    (h_judge : judge_fn c.inputs c.expected_outcome (some ar.outputOf) c.expected_metadata
        ar.metaOf = Except.ok (jb, jr)) :
    ((Boba.process_case gid c agent judge_fn (some f)).map
        (fun o => (o.result.passed, o.result.metadata_passed, o.result.error_message)) =
      Except.ok (jb && f c.expected_metadata ar.metaOf,
        some (f c.expected_metadata ar.metaOf), none)) ∧
    ((Boba.process_case gid c agent judge_fn none).map
        (fun o => (o.result.passed, o.result.metadata_passed)) =
      Except.ok (jb, none)) ∧
    ((Boba.eval env_ok warned gen case_id fn input outp expected nm em am (some f) jp).map
        (fun p => (p.1.passed, (p.2.results.lookup case_id).map (fun r => r.metadata_passed))) =
      Except.ok
        ((simple_judge [{ role := "user", message := input }] expected outp em am).1 && f em am,
          some (some (f em am)))) ∧
    ((Boba.eval env_ok warned gen case_id fn input outp expected nm em am none jp).map
        (fun p => (p.1.passed, (p.2.results.lookup case_id).map (fun r => r.metadata_passed))) =
      Except.ok
        ((simple_judge [{ role := "user", message := input }] expected outp em am).1,
          some none)) := by
  refine ⟨?_, ?_, ?_, ?_⟩ <;>
    [cases ar; cases ar; skip; skip] <;>
    simp only [AgentRet.outputOf, AgentRet.metaOf] at h_judge ⊢ <;>
    simp [Boba.process_case, Boba.eval, h_agent, h_judge, pyTruthyStr,
      judge_resolution_simple, create_simple_judge, List.lookup,
      Except.map, except_ok_bind]

/-- C5 witness: the gating theorem applied at a concrete agent, judge and
checker. -/
theorem c5_witness :
    ((Boba.process_case "g"
          { id := some "c1", name := none, inputs := [], expected_outcome := "",
            expected_metadata := none }
          (fun _ => Except.ok (AgentRet.text "o"))
          (fun _ _ _ _ _ => Except.ok (true, "r")) (some (fun _ _ => false))).map
        (fun o => (o.result.passed, o.result.metadata_passed, o.result.error_message)) =
      Except.ok (true && false, some false, none)) ∧
    ((Boba.process_case "g"
          { id := some "c1", name := none, inputs := [], expected_outcome := "",
            expected_metadata := none }
          (fun _ => Except.ok (AgentRet.text "o"))
          (fun _ _ _ _ _ => Except.ok (true, "r")) none).map
        (fun o => (o.result.passed, o.result.metadata_passed)) =
      Except.ok (true, none)) ∧
    ((Boba.eval true false (fun _ => Except.error "g") "cid" "f1" "i" "o" "e" none none none
          (some (fun _ _ => false)) none).map
        (fun p => (p.1.passed, (p.2.results.lookup "cid").map (fun r => r.metadata_passed))) =
      Except.ok
        ((simple_judge [{ role := "user", message := "i" }] "e" "o" none none).1 && false,
          some (some false))) ∧
    ((Boba.eval true false (fun _ => Except.error "g") "cid" "f1" "i" "o" "e" none none none
          none none).map
        (fun p => (p.1.passed, (p.2.results.lookup "cid").map (fun r => r.metadata_passed))) =
      Except.ok
        ((simple_judge [{ role := "user", message := "i" }] "e" "o" none none).1,
          some none)) := by
  have h := c5_metadata_gating "g"
    { id := some "c1", name := none, inputs := [], expected_outcome := "",
      expected_metadata := none }
    (fun _ => Except.ok (AgentRet.text "o")) (fun _ _ _ _ _ => Except.ok (true, "r"))
    (fun _ _ => false) (AgentRet.text "o") true "r" true false
    (fun _ => Except.error "g") "cid" "f1" "i" "o" "e" none none none none rfl rfl
  exact h

/-- Inversion of a successful `Except` bind. -/
theorem except_bind_ok_inv {ε α β : Type _} {X : Except ε α} {k : α → Except ε β} {b : β}
    (h : (X >>= k) = Except.ok b) : ∃ a, X = Except.ok a ∧ k a = Except.ok b := by
  cases X with
  | error e => rw [except_error_bind] at h; exact absurd h (by simp)
  | ok a => exact ⟨a, rfl, by rwa [except_ok_bind] at h⟩

/-- The case id recorded by a successful `_process_case` is the case's id
(or the generated fallback id). -/
theorem process_case_ok_id {gid : String} {c : Case} {agent : Agent} {judge_fn : Judge}
    {mc : Option Checker} {rd : ProcOut}
    (h : Boba.process_case gid c agent judge_fn mc = Except.ok rd) :
    rd.case_id = c.id.getD gid := by
  unfold Boba.process_case at h
  obtain ⟨⟨p, r, mp⟩, -, hk⟩ := except_bind_ok_inv h
  cases hk
  rfl

/-- `getLastD` of an appended list. -/
theorem getLastD_append {α : Type _} (l₁ l₂ : List α) (b : α) :
    (l₁ ++ l₂).getLastD b = l₂.getLastD (l₁.getLastD b) := by
  induction l₁ generalizing b with
  | nil => rfl
  | cons a l₁ ih => simp only [List.cons_append, List.getLastD_cons, ih]

/-- Python dict assignment at a fresh key appends. -/
theorem dict_set_fresh (m : List (String × CaseResultRec)) (k : String) (v : CaseResultRec)
    (h : k ∉ m.map Prod.fst) : dict_set m k v = m ++ [(k, v)] := by
  unfold dict_set
  have hany : m.any (fun p => decide (p.1 = k)) = false := by
    rw [List.any_eq_false]
    intro p hp
    simp only [decide_eq_true_eq]
    intro hpk
    exact h (List.mem_map.mpr ⟨p, hp, hpk⟩)
  simp [hany]

/-- Keys after a fresh-key dict assignment. -/
theorem dict_set_fresh_keys (m : List (String × CaseResultRec)) (k : String)
    (v : CaseResultRec) (h : k ∉ m.map Prod.fst) :
    (dict_set m k v).map Prod.fst = m.map Prod.fst ++ [k] := by
  rw [dict_set_fresh m k v h]
  simp

/-- Counter invariant of the sequential loop: a completed loop adds exactly
the number of processed cases to the counters, split by the per-case verdict,
and leaves the fixed run fields unchanged. -/
theorem seq_loop_fields (gid : String) (agent : Agent) (judge_fn : Judge)
    (mc : Option Checker) :
    ∀ (L : List Case) (st st' : RunRec) (sv : List RunRec),
      Boba.seq_loop gid agent judge_fn mc st L = Except.ok (st', sv) →
      st'.passed = st.passed + L.countP (proc_passed gid agent judge_fn mc) ∧
      st'.failed = st.failed + L.countP (fun c => !proc_passed gid agent judge_fn mc c) ∧
      st'.total = st.total ∧ st'.status = st.status ∧ st'.filename = st.filename := by
  intro L
  induction L with
  | nil =>
    intro st st' sv h
    simp only [Boba.seq_loop] at h
    simp only [Except.ok.injEq, Prod.mk.injEq] at h
    obtain ⟨rfl, rfl⟩ := h
    simp
  | cons c L ih =>
    intro st st' sv h
    simp only [Boba.seq_loop] at h
    obtain ⟨rd, hpc, h⟩ := except_bind_ok_inv h
    obtain ⟨⟨stF, sv'⟩, hrec, hfin⟩ := except_bind_ok_inv h
    simp only [Except.ok.injEq, Prod.mk.injEq] at hfin
    obtain ⟨rfl, rfl⟩ := hfin
    obtain ⟨h1, h2, h3, h4, h5⟩ := ih _ _ _ hrec
    have hp : proc_passed gid agent judge_fn mc c = rd.passed := by
      unfold proc_passed
      rw [hpc]
    refine ⟨?_, ?_, ?_, ?_, ?_⟩
    · rw [h1, List.countP_cons, hp]
      cases hrd : rd.passed <;> simp [fold_result, hrd] <;> omega
    · rw [h2, List.countP_cons, hp]
      cases hrd : rd.passed <;> simp [fold_result, hrd] <;> omega
    · rw [h3]; cases hrd : rd.passed <;> simp [fold_result]
    · rw [h4]; cases hrd : rd.passed <;> simp [fold_result]
    · rw [h5]; cases hrd : rd.passed <;> simp [fold_result]

/-- Counter invariant of the parallel loop (any starting save counter). -/
theorem par_loop_fields (gid : String) (agent : Agent) (judge_fn : Judge)
    (mc : Option Checker) :
    ∀ (L : List Case) (st st' : RunRec) (k : Nat) (sv : List RunRec),
      Boba.par_loop gid agent judge_fn mc st k L = Except.ok (st', sv) →
      st'.passed = st.passed + L.countP (proc_passed gid agent judge_fn mc) ∧
      st'.failed = st.failed + L.countP (fun c => !proc_passed gid agent judge_fn mc c) ∧
      st'.total = st.total ∧ st'.status = st.status ∧ st'.filename = st.filename := by
  intro L
  induction L with
  | nil =>
    intro st st' k sv h
    simp only [Boba.par_loop] at h
    simp only [Except.ok.injEq, Prod.mk.injEq] at h
    obtain ⟨rfl, rfl⟩ := h
    simp
  | cons c L ih =>
    intro st st' k sv h
    simp only [Boba.par_loop] at h
    obtain ⟨rd, hpc, h⟩ := except_bind_ok_inv h
    obtain ⟨⟨stF, sv'⟩, hrec, hfin⟩ := except_bind_ok_inv h
    simp only [Except.ok.injEq, Prod.mk.injEq] at hfin
    obtain ⟨rfl, rfl⟩ := hfin
    obtain ⟨h1, h2, h3, h4, h5⟩ := ih _ _ _ _ hrec
    have hp : proc_passed gid agent judge_fn mc c = rd.passed := by
      unfold proc_passed
      rw [hpc]
    refine ⟨?_, ?_, ?_, ?_, ?_⟩
    · rw [h1, List.countP_cons, hp]
      cases hrd : rd.passed <;> simp [fold_result, hrd] <;> omega
    · rw [h2, List.countP_cons, hp]
      cases hrd : rd.passed <;> simp [fold_result, hrd] <;> omega
    · rw [h3]; cases hrd : rd.passed <;> simp [fold_result]
    · rw [h4]; cases hrd : rd.passed <;> simp [fold_result]
    · rw [h5]; cases hrd : rd.passed <;> simp [fold_result]

/-- Field characterization of a completed `run_exec`: counters count per-case
verdicts over the executed order (completion order when parallel), total is
the selected-case count, and the score is the source's expression. -/
theorem run_exec_fields (gid : String) (sched : List Case → List Case) (fn : String)
    (bl : Option Baseline) (agent : Agent) (judge_fn : Judge) (mc : Option Checker)
    (ds : Dataset) (nm : Option String) (cases : List Case) (up : Bool)
    (s : RunSummary) (saves : List RunRec)
    (h : Boba.run_exec gid sched fn bl agent judge_fn mc ds nm cases up =
      Except.ok (s, saves)) :
    s.passed = (if up then sched cases else cases).countP
        (proc_passed gid agent judge_fn mc) ∧
    s.failed = (if up then sched cases else cases).countP
        (fun c => !proc_passed gid agent judge_fn mc c) ∧
    s.total = cases.length ∧
    s.score = (if cases ≠ [] then (s.passed : ℚ) / (cases.length : ℚ) * 100 else 0) := by
  simp only [Boba.run_exec] at h
  split at h
  · exact absurd h (by simp)
  · rename_i st lsv heq
    simp only [Except.ok.injEq, Prod.mk.injEq] at h
    obtain ⟨rfl, rfl⟩ := h
    split at heq
    · rename_i hup
      split at heq
      · exact absurd heq (by simp)
      · rename_i st0 lsv0 heq0
        simp only [Except.ok.injEq, Prod.mk.injEq] at heq
        obtain ⟨rfl, rfl⟩ := heq
        obtain ⟨h1, h2, h3, -, -⟩ := par_loop_fields gid agent judge_fn mc _ _ _ _ _ heq0
        simp only [h1, h2, h3] at *
        simp [hup]
    · rename_i hup
      obtain ⟨h1, h2, h3, -, -⟩ := seq_loop_fields gid agent judge_fn mc _ _ _ _ heq
      simp only [h1, h2, h3] at *
      simp [Bool.not_eq_true] at hup
      simp [hup]

/-- A list's length splits into the count of a predicate and its negation. -/
theorem countP_add_not {α : Type _} (p : α → Bool) (l : List α) :
    l.countP p + l.countP (fun a => !p a) = l.length := by
  induction l with
  | nil => simp
  | cons a l ih =>
    rw [List.countP_cons, List.countP_cons]
    cases h : p a <;> simp [h] <;> omega

/-- Inversion of a successful `Boba.run`: the dataset was found and non-empty,
filtering succeeded, and the result is that of `run_exec` on the filtered
cases with the resolved parallelism and the resolved (always simple) judge. -/
theorem run_ok_inv (env_ok warned : Bool) (gen : GenJson) (gid : String)
    (sched : List Case → List Case) (eci emw : Option String) (fn : String)
    (bl : Option Baseline) (agent : Agent) (dsn : String) (dsl : Option Dataset)
    (nm : Option String) (mc : Option Checker) (jp : Option String)
    (cids : Option (List String)) (mw : Option Int)
    (s : RunSummary) (saves : List RunRec)
    (h : Boba.run env_ok warned gen gid sched eci emw fn bl agent dsn dsl nm mc jp cids mw =
      Except.ok (s, saves)) :
    ∃ ds cases2, dsl = some ds ∧ ds.cases ≠ [] ∧
      Boba.filter_cases dsn ds.cases (Boba.resolve_case_ids cids eci) = Except.ok cases2 ∧
      Boba.run_exec gid sched fn bl agent
          (judge_of_kind gen (Boba.get_judge env_ok warned true jp).kind) mc ds nm cases2
          (match Boba.resolve_max_workers mw emw with
            | some w => decide (w > 1)
            | none => false) =
        Except.ok (s, saves) := by
  unfold Boba.run at h
  split at h
  · exact absurd h (by simp)
  · rename_i ds
    split at h
    · exact absurd h (by simp)
    · rename_i hne
      split at h
      · exact absurd h (by simp)
      · rename_i cases2 heq
        exact ⟨ds, cases2, rfl, hne, heq, h⟩

/-- Counter invariant of the `run_eval` fold. -/
theorem run_eval_foldl_counts (er : RCase → Except String String) (jf : Option RJudge) :
    ∀ (cs : List RCase) (acc : List RCaseResult × Nat × Nat),
      (cs.foldl (Runner.run_eval_step er jf) acc).2.1 +
          (cs.foldl (Runner.run_eval_step er jf) acc).2.2 =
        acc.2.1 + acc.2.2 + cs.length := by
  intro cs
  induction cs with
  | nil => intro acc; simp
  | cons c cs ih =>
    intro acc
    rw [List.foldl_cons, ih]
    obtain ⟨results, passed, failed⟩ := acc
    unfold Runner.run_eval_step
    by_cases h1 : pyTruthyStr (Runner.run_case er jf c).error_message = true
    · simp [h1]
      omega
    · by_cases h2 : (Runner.run_case er jf c).passed = true <;> simp [h1, h2] <;> omega

/-- C7: for every completed `Boba.run` (any mode, any worker count, any
permutation completion order) `passed + failed = total` and
`score = passed/total*100` when `total > 0` with `score = 0` at `total = 0`
(stated as one conditional expression); the same two invariants hold
unconditionally for `runner.run_eval`'s `RunResult`. -/
theorem c7_run_count_and_score_invariant (env_ok warned : Bool) (gen : GenJson)
    (gid : String) (sched : List Case → List Case) (eci emw : Option String)
    (fn : String) (bl : Option Baseline) (agent : Agent) (dsn : String)
    (dsl : Option Dataset) (nm : Option String) (mc : Option Checker)
    (jp : Option String) (cids : Option (List String)) (mw : Option Int)
    (s : RunSummary) (saves : List RunRec)
    (er : RCase → Except String String) (jf : Option RJudge) (rcs : List RCase)
    (hperm : ∀ l, (sched l).Perm l)
    (h : Boba.run env_ok warned gen gid sched eci emw fn bl agent dsn dsl nm mc jp cids mw =
      Except.ok (s, saves)) :
    (s.passed + s.failed = s.total ∧
      s.score = (if 0 < s.total then (s.passed : ℚ) / (s.total : ℚ) * 100 else 0)) ∧
    ((Runner.run_eval er jf rcs).passed + (Runner.run_eval er jf rcs).failed =
        (Runner.run_eval er jf rcs).total ∧
      (Runner.run_eval er jf rcs).score =
        (if 0 < (Runner.run_eval er jf rcs).total then
          ((Runner.run_eval er jf rcs).passed : ℚ) /
              ((Runner.run_eval er jf rcs).total : ℚ) * 100
        else 0)) := by
  constructor
  · obtain ⟨ds, cases2, -, -, -, hexec⟩ :=
      run_ok_inv env_ok warned gen gid sched eci emw fn bl agent dsn dsl nm mc jp cids mw
        s saves h
    obtain ⟨h1, h2, h3, h4⟩ := run_exec_fields _ _ _ _ _ _ _ _ _ _ _ _ _ hexec
    constructor
    · rw [h1, h2, h3]
      split
      · rw [← (hperm cases2).length_eq]
        exact countP_add_not _ _
      · exact countP_add_not _ _
    · rw [h4, h3]
      rcases Decidable.em (cases2 = []) with hc | hc
      · simp [hc]
      · have hpos : 0 < cases2.length := List.length_pos.mpr hc
        simp [hc, hpos]
  · constructor
    · show (Runner.run_eval er jf rcs).passed + (Runner.run_eval er jf rcs).failed = _
      unfold Runner.run_eval
      have := run_eval_foldl_counts er jf rcs ([], 0, 0)
      simpa using this
    · unfold Runner.run_eval
      rcases Nat.eq_zero_or_pos rcs.length with hc | hc
      · simp [hc]
      · simp [hc, Nat.pos_iff_ne_zero.mp hc, gt_iff_lt]

/-- C7 witness: the invariant theorem applied at a concrete one-case dataset
whose agent raises, run sequentially, with a concrete empty `run_eval`. -/
theorem c7_witness :
    ((Boba.run true false (fun _ => Except.error "") "g" id none none "f" none
        (fun _ => Except.error "x") "d"
        (some { id := "i", name := "n",
                cases := [{ id := some "a", name := none, inputs := [],
                            expected_outcome := "", expected_metadata := none }] })
        none none none none none).toOption.getD default).1.passed +
        ((Boba.run true false (fun _ => Except.error "") "g" id none none "f" none
        (fun _ => Except.error "x") "d"
        (some { id := "i", name := "n",
                cases := [{ id := some "a", name := none, inputs := [],
                            expected_outcome := "", expected_metadata := none }] })
        none none none none none).toOption.getD default).1.failed =
      ((Boba.run true false (fun _ => Except.error "") "g" id none none "f" none
        (fun _ => Except.error "x") "d"
        (some { id := "i", name := "n",
                cases := [{ id := some "a", name := none, inputs := [],
                            expected_outcome := "", expected_metadata := none }] })
        none none none none none).toOption.getD default).1.total :=
  (c7_run_count_and_score_invariant true false (fun _ => Except.error "") "g" id none none
      "f" none (fun _ => Except.error "x") "d"
      (some { id := "i", name := "n",
              cases := [{ id := some "a", name := none, inputs := [],
                          expected_outcome := "", expected_metadata := none }] })
      none none none none none _ _ (fun _ => Except.ok "y") none []
      (fun l => List.Perm.refl l) rfl).1.1

/-- C8: running the same dataset with the same deterministic agent and judge
(and distinct case ids) under `max_workers = 1` (sequential) and
`max_workers = w > 1` (parallel, any permutation completion order `sched`)
yields identical `passed`, `failed`, `total` and `score` in the summary. -/
theorem c8_mode_equivalence (env_ok warned : Bool) (gen : GenJson) (gid : String)
    (sched : List Case → List Case) (eci emw : Option String) (fn : String)
    (bl : Option Baseline) (agent : Agent) (dsn : String) (ds : Dataset)
    (nm : Option String) (mc : Option Checker) (jp : Option String)
    (cids : Option (List String)) (w : Int)
    (s1 s2 : RunSummary) (sv1 sv2 : List RunRec)
    (hperm : ∀ l, (sched l).Perm l) (hw : 1 < w)
    (hids : (ds.cases.map (fun c => c.id.getD gid)).Nodup)
    (h1 : Boba.run env_ok warned gen gid sched eci emw fn bl agent dsn (some ds) nm mc jp
        cids (some 1) = Except.ok (s1, sv1))
    (h2 : Boba.run env_ok warned gen gid sched eci emw fn bl agent dsn (some ds) nm mc jp
        cids (some w) = Except.ok (s2, sv2)) :
    s1.passed = s2.passed ∧ s1.failed = s2.failed ∧ s1.total = s2.total ∧
      s1.score = s2.score := by
  obtain ⟨dsa, ca, hda, -, hfa, hea⟩ :=
    run_ok_inv env_ok warned gen gid sched eci emw fn bl agent dsn (some ds) nm mc jp
      cids (some 1) s1 sv1 h1
  obtain ⟨dsb, cb, hdb, -, hfb, heb⟩ :=
    run_ok_inv env_ok warned gen gid sched eci emw fn bl agent dsn (some ds) nm mc jp
      cids (some w) s2 sv2 h2
  injection hda with hda'
  injection hdb with hdb'
  subst hda'
  subst hdb'
  have hcc : ca = cb := by
    have := hfa.symm.trans hfb
    injection this
  subst hcc
  have hup1 : (match Boba.resolve_max_workers (some 1) emw with
      | some w => decide (w > 1)
      | none => false) = false := by rfl
  have hup2 : (match Boba.resolve_max_workers (some w) emw with
      | some w => decide (w > 1)
      | none => false) = true := by
    simp [Boba.resolve_max_workers, hw]
  rw [hup1] at hea
  rw [hup2] at heb
  obtain ⟨p1, f1, t1, sc1⟩ := run_exec_fields _ _ _ _ _ _ _ _ _ _ _ _ _ hea
  obtain ⟨p2, f2, t2, sc2⟩ := run_exec_fields _ _ _ _ _ _ _ _ _ _ _ _ _ heb
  simp only [if_true, if_false, Bool.false_eq_true] at p1 f1 p2 f2
  have hpassed : s1.passed = s2.passed := by
    rw [p1, p2, (hperm ca).countP_eq]
  have hfailed : s1.failed = s2.failed := by
    rw [f1, f2, (hperm ca).countP_eq]
  have htotal : s1.total = s2.total := by rw [t1, t2]
  refine ⟨hpassed, hfailed, htotal, ?_⟩
  rw [sc1, sc2, hpassed]

/-- C8 witness: the mode-equivalence theorem applied at a concrete two-case
dataset with reversal as the parallel completion order. -/
theorem c8_witness :
    ((Boba.run true false (fun _ => Except.error "") "g" List.reverse none none "f" none
        (fun _ => Except.ok (AgentRet.text "hello")) "d"
        (some { id := "i", name := "n",
                cases := [{ id := some "a", name := none, inputs := [],
                            expected_outcome := "", expected_metadata := none },
                          { id := some "b", name := none, inputs := [],
                            expected_outcome := "", expected_metadata := none }] })
        none none none none (some 1)).toOption.getD default).1.passed =
      ((Boba.run true false (fun _ => Except.error "") "g" List.reverse none none "f" none
        (fun _ => Except.ok (AgentRet.text "hello")) "d"
        (some { id := "i", name := "n",
                cases := [{ id := some "a", name := none, inputs := [],
                            expected_outcome := "", expected_metadata := none },
                          { id := some "b", name := none, inputs := [],
                            expected_outcome := "", expected_metadata := none }] })
        none none none none (some 4)).toOption.getD default).1.passed :=
  (c8_mode_equivalence true false (fun _ => Except.error "") "g" List.reverse none none
      "f" none (fun _ => Except.ok (AgentRet.text "hello")) "d"
      { id := "i", name := "n",
                cases := [{ id := some "a", name := none, inputs := [],
                            expected_outcome := "", expected_metadata := none },
                          { id := some "b", name := none, inputs := [],
                            expected_outcome := "", expected_metadata := none }] }
      none none none none 4 _ _ _ _
      (fun l => l.reverse_perm) (by norm_num) (by decide) rfl rfl).1

/-- C6: case-id filtering. For a dataset with cases `[ca, cb, cc]` (ids
`a`, `b`, `c`): (1) running with `case_ids=[a,c]` executes exactly the two
selected cases — `total = 2` and the final persisted result map has key list
`[a, c]`; (2) any non-empty requested id list containing ids absent from the
dataset makes the run fail fast with one message enumerating all (sorted,
deduplicated) unknown ids, before any case executes; (3) with
`case_ids = []` the run behaves identically to `case_ids = None` in an
environment with no `BOBA_CASE_IDS` override (all cases run); (4) an explicit
`case_ids` argument makes the run independent of the `BOBA_CASE_IDS`
environment value. -/
theorem c6_case_id_filtering (env_ok warned : Bool) (gen : GenJson) (gid : String)
    (sched : List Case → List Case) (eci emw : Option String) (fn : String)
    (bl : Option Baseline) (agent : Agent) (dsn did dnm : String)
    (nm : Option String) (mc : Option Checker) (jp : Option String)
    (ca cb cc : Case) (a b c : String) (ra rc : ProcOut)
    (l : List String) (mw : Option Int)
    (ha : ca.id = some a) (hb : cb.id = some b) (hc : cc.id = some c)
    (hba : b ≠ a) (hbc : b ≠ c) (hac : a ≠ c)
    (hoka : Boba.process_case gid ca agent create_simple_judge mc = Except.ok ra)
    (hokc : Boba.process_case gid cc agent create_simple_judge mc = Except.ok rc)
    (hl : 0 < l.length)
    (hunk : (l.filter (fun cid =>
        !(([ca, cb, cc].map (fun x => x.id)).contains (some cid)))).dedup ≠ []) :
    ((Boba.run env_ok warned gen gid sched eci emw fn bl agent dsn
          (some { id := did, name := dnm, cases := [ca, cb, cc] }) nm mc jp
          (some [a, c]) (some 1)).map
        (fun p => (p.1.total, (p.2.getLast?).map (fun r => r.results.map Prod.fst))) =
      Except.ok (2, some [a, c])) ∧
    (Boba.run env_ok warned gen gid sched eci emw fn bl agent dsn
        (some { id := did, name := dnm, cases := [ca, cb, cc] }) nm mc jp
        (some l) mw =
      Except.error ("Case IDs not found in dataset \x27" ++ dsn ++ "\x27: " ++
        joinSep ", " (pySorted ((l.filter (fun cid =>
          !(([ca, cb, cc].map (fun x => x.id)).contains (some cid)))).dedup)))) ∧
    (Boba.run env_ok warned gen gid sched eci emw fn bl agent dsn
        (some { id := did, name := dnm, cases := [ca, cb, cc] }) nm mc jp
        (some []) mw =
      Boba.run env_ok warned gen gid sched none emw fn bl agent dsn
        (some { id := did, name := dnm, cases := [ca, cb, cc] }) nm mc jp
        none mw) ∧
    (Boba.run env_ok warned gen gid sched eci emw fn bl agent dsn
        (some { id := did, name := dnm, cases := [ca, cb, cc] }) nm mc jp
        (some l) mw =
      Boba.run env_ok warned gen gid sched none emw fn bl agent dsn
        (some { id := did, name := dnm, cases := [ca, cb, cc] }) nm mc jp
        (some l) mw) := by
  have hida : ra.case_id = a := by
    rw [process_case_ok_id hoka, ha]
    rfl
  have hidc : rc.case_id = c := by
    rw [process_case_ok_id hokc, hc]
    rfl
  refine ⟨?_, ?_, rfl, rfl⟩
  · have hfil :
        Boba.filter_cases dsn [ca, cb, cc] (Boba.resolve_case_ids (some [a, c]) eci) =
          Except.ok [ca, cc] := by
      simp only [Boba.resolve_case_ids, Boba.filter_cases]
      simp [ha, hb, hc, hba, hbc, List.contains]
    simp only [Boba.run]
    rw [hfil]
    simp only [judge_resolution_simple]
    have hup : (match Boba.resolve_max_workers (some 1) emw with
        | some w => decide (w > 1)
        | none => false) = false := rfl
    simp only [Boba.run_exec, hup, if_false, Bool.false_eq_true]
    simp only [Boba.seq_loop, hoka, hokc, except_ok_bind, except_error_bind]
    simp [fold_result, dict_set, hida, hidc, hac, Except.map]
  · have hfil :
        Boba.filter_cases dsn [ca, cb, cc] (Boba.resolve_case_ids (some l) eci) =
          Except.error ("Case IDs not found in dataset \x27" ++ dsn ++ "\x27: " ++
            joinSep ", " (pySorted ((l.filter (fun cid =>
              !(([ca, cb, cc].map (fun x => x.id)).contains (some cid)))).dedup))) := by
      simp only [Boba.resolve_case_ids, Boba.filter_cases]
      rw [if_pos hl, if_pos hunk]
    simp only [Boba.run]
    rw [hfil]
    simp

/-- C6 witness: the filtering theorem applied at a concrete three-case
dataset, selecting ids `a` and `c` and requesting the unknown id `zz`. -/
theorem c6_witness :
    (Boba.run true false (fun _ => Except.error "") "g" id none none "f" none
          (fun _ => Except.ok (AgentRet.text "hello")) "d"
          (some { id := "i", name := "n",
                  cases := [{ id := some "a", name := none, inputs := [], expected_outcome := "", expected_metadata := none },
                            { id := some "b", name := none, inputs := [], expected_outcome := "", expected_metadata := none },
                            { id := some "c", name := none, inputs := [], expected_outcome := "", expected_metadata := none }] })
          none none none (some ["a", "c"]) (some 1)).map
        (fun p => (p.1.total, (p.2.getLast?).map (fun r => r.results.map Prod.fst))) =
      Except.ok (2, some ["a", "c"]) :=
  (c6_case_id_filtering true false (fun _ => Except.error "") "g" id none none "f" none
      (fun _ => Except.ok (AgentRet.text "hello")) "d" "i" "n" none none none
      { id := some "a", name := none, inputs := [], expected_outcome := "", expected_metadata := none }
      { id := some "b", name := none, inputs := [], expected_outcome := "", expected_metadata := none }
      { id := some "c", name := none, inputs := [], expected_outcome := "", expected_metadata := none }
      "a" "b" "c"
      ((Boba.process_case "g" { id := some "a", name := none, inputs := [], expected_outcome := "", expected_metadata := none } (fun _ => Except.ok (AgentRet.text "hello")) create_simple_judge none).toOption.getD default)
      ((Boba.process_case "g" { id := some "c", name := none, inputs := [], expected_outcome := "", expected_metadata := none } (fun _ => Except.ok (AgentRet.text "hello")) create_simple_judge none).toOption.getD default)
      ["zz"] (some 1)
      rfl rfl rfl (by decide) (by decide) (by decide) rfl rfl (by decide) (by decide)).1

/-- Freshness propagation step: after folding one case with a fresh key, the
result map of the state grows by exactly that key at the end. -/
theorem fold_result_fresh (st : RunRec) (rd : ProcOut)
    (h : rd.case_id ∉ st.results.map Prod.fst) :
    (fold_result st rd).results = st.results ++ [(rd.case_id, rd.result)] := by
  simp only [fold_result]
  exact dict_set_fresh _ _ _ h

/-- Result-map growth of the parallel loop: with pairwise-distinct, fresh case
ids, a completed loop adds exactly one entry per folded case. -/
theorem par_loop_results_len (gid : String) (agent : Agent) (judge_fn : Judge)
    (mc : Option Checker) :
    ∀ (L : List Case) (st : RunRec) (k : Nat) (st' : RunRec) (sv : List RunRec),
      (L.map (fun c => c.id.getD gid)).Nodup →
      (∀ c ∈ L, (c.id.getD gid) ∉ st.results.map Prod.fst) →
      Boba.par_loop gid agent judge_fn mc st k L = Except.ok (st', sv) →
      st'.results.length = st.results.length + L.length := by
  intro L
  induction L with
  | nil =>
    intro st k st' sv _ _ hloop
    simp only [Boba.par_loop] at hloop
    simp only [Except.ok.injEq, Prod.mk.injEq] at hloop
    obtain ⟨rfl, rfl⟩ := hloop
    simp
  | cons c L ih =>
    intro st k st' sv hnodup hfresh hloop
    simp only [Boba.par_loop] at hloop
    obtain ⟨rd, hpc, hloop⟩ := except_bind_ok_inv hloop
    obtain ⟨⟨stF, sv'⟩, hrec, hfin⟩ := except_bind_ok_inv hloop
    simp only [Except.ok.injEq, Prod.mk.injEq] at hfin
    obtain ⟨rfl, rfl⟩ := hfin
    have hid : rd.case_id = c.id.getD gid := process_case_ok_id hpc
    have hkey : rd.case_id ∉ st.results.map Prod.fst := by
      rw [hid]
      exact hfresh c (List.mem_cons_self c L)
    have hres1 := fold_result_fresh st rd hkey
    have hkeys1 : (fold_result st rd).results.map Prod.fst =
        st.results.map Prod.fst ++ [c.id.getD gid] := by
      rw [hres1]
      simp [hid]
    rw [List.map_cons, List.nodup_cons] at hnodup
    obtain ⟨hnotin, hnodL⟩ := hnodup
    have hfresh1 : ∀ x ∈ L, (x.id.getD gid) ∉ (fold_result st rd).results.map Prod.fst := by
      intro x hx
      rw [hkeys1]
      simp only [List.mem_append, List.mem_singleton]
      rintro (hmem | heqk)
      · exact hfresh x (List.mem_cons_of_mem _ hx) hmem
      · exact hnotin (heqk ▸ List.mem_map.mpr ⟨x, hx, rfl⟩)
    have := ih (fold_result st rd) (k + 1) stF sv' hnodL hfresh1 hrec
    rw [this, hres1]
    simp
    omega

/-- One fold step preserves the freshness invariant and grows the result map
by one entry. -/
theorem fresh_step (gid : String) (c : Case) (L : List Case) (st : RunRec) (rd : ProcOut)
    (hnodup : ((c :: L).map (fun x => x.id.getD gid)).Nodup)
    (hfresh : ∀ x ∈ c :: L, (x.id.getD gid) ∉ st.results.map Prod.fst)
    (hid : rd.case_id = c.id.getD gid) :
    (∀ x ∈ L, (x.id.getD gid) ∉ (fold_result st rd).results.map Prod.fst) ∧
    (L.map (fun x => x.id.getD gid)).Nodup ∧
    (fold_result st rd).results.length = st.results.length + 1 := by
  have hkey : rd.case_id ∉ st.results.map Prod.fst := by
    rw [hid]
    exact hfresh c (List.mem_cons_self c L)
  have hres1 := fold_result_fresh st rd hkey
  rw [List.map_cons, List.nodup_cons] at hnodup
  obtain ⟨hnotin, hnodL⟩ := hnodup
  refine ⟨?_, hnodL, ?_⟩
  · intro x hx
    rw [hres1]
    simp only [List.map_append, List.map_cons, List.map_nil, List.mem_append,
      List.mem_singleton, hid]
    rintro (hmem | heqk)
    · exact hfresh x (List.mem_cons_of_mem _ hx) hmem
    · exact hnotin (heqk ▸ List.mem_map.mpr ⟨x, hx, rfl⟩)
  · rw [hres1]
    simp

/-- Crash-durability invariant of the parallel loop: starting from a state
whose result map has `k` entries (matching the save counter) and a last
persisted snapshot holding at least `k - k % 5` results, after `n` further
folded completions the last persisted snapshot holds at least
`(k+n) - (k+n) % 5` results. -/
theorem par_loop_persisted_bound (gid : String) (agent : Agent) (judge_fn : Judge)
    (mc : Option Checker) :
    ∀ (L : List Case) (n : Nat) (st b : RunRec) (k : Nat) (stN : RunRec)
      (savesN : List RunRec),
      n ≤ L.length →
      (L.map (fun x => x.id.getD gid)).Nodup →
      (∀ x ∈ L, (x.id.getD gid) ∉ st.results.map Prod.fst) →
      st.results.length = k →
      k - k % SAVE_INTERVAL ≤ b.results.length →
      Boba.par_loop gid agent judge_fn mc st k (L.take n) = Except.ok (stN, savesN) →
      (k + n) - (k + n) % SAVE_INTERVAL ≤ ((savesN.getLastD b).results).length := by
  intro L
  induction L with
  | nil =>
    intro n st b k stN savesN hn _ _ _ hb hloop
    have hn0 : n = 0 := Nat.le_zero.mp hn
    subst hn0
    simp only [List.take_nil, Boba.par_loop] at hloop
    simp only [Except.ok.injEq, Prod.mk.injEq] at hloop
    obtain ⟨rfl, rfl⟩ := hloop
    simpa using hb
  | cons c L ih =>
    intro n st b k stN savesN hn hnodup hfresh hk hb hloop
    cases n with
    | zero =>
      simp only [List.take_zero, Boba.par_loop] at hloop
      simp only [Except.ok.injEq, Prod.mk.injEq] at hloop
      obtain ⟨rfl, rfl⟩ := hloop
      simpa using hb
    | succ m =>
      simp only [List.take_succ_cons, Boba.par_loop] at hloop
      obtain ⟨rd, hpc, hloop⟩ := except_bind_ok_inv hloop
      obtain ⟨⟨stF, sv'⟩, hrec, hfin⟩ := except_bind_ok_inv hloop
      simp only [Except.ok.injEq, Prod.mk.injEq] at hfin
      obtain ⟨rfl, rfl⟩ := hfin
      have hid : rd.case_id = c.id.getD gid := process_case_ok_id hpc
      obtain ⟨hfresh1, hnodL, hlen1⟩ := fresh_step gid c L st rd hnodup hfresh hid
      have hm : m ≤ L.length := Nat.le_of_succ_le_succ hn
      have hbound :
          (k + 1) - (k + 1) % SAVE_INTERVAL ≤
            (((if (k + 1) % SAVE_INTERVAL = 0 then [fold_result st rd]
                else []).getLastD b).results).length := by
        by_cases h5 : (k + 1) % SAVE_INTERVAL = 0
        · simp only [h5, if_true, List.getLastD_cons, List.getLastD_nil]
          rw [hlen1, hk]
          omega
        · simp only [h5, if_false, List.getLastD_nil]
          refine le_trans ?_ hb
          simp only [SAVE_INTERVAL] at h5 ⊢
          omega
      have := ih m (fold_result st rd) _ (k + 1) stF sv' hm hnodL hfresh1
        (by rw [hlen1, hk]) hbound hrec
      rw [getLastD_append]
      have harith : k + (m + 1) = (k + 1) + m := by omega
      rw [harith]
      exact this

/-- C9: crash durability in parallel mode. With distinct case ids, an empty
initial result map, and `L.take n` the first `n` folded completions (a crash
immediately after the `n`-th completion): the most recent store snapshot (the
initial save when no periodic save happened yet) holds at least
`n - n % SAVE_INTERVAL` recorded results — at most 4 completed results are
unpersisted. Moreover a completed parallel `run_exec` ends with an
unconditional post-drain flush and a finalize flush, so its last persisted
snapshot holds all `total = |L|` results. -/
theorem c9_crash_durability_bound (gid : String) (agent : Agent) (judge_fn : Judge)
    (mc : Option Checker) (sched : List Case → List Case) (fn : String)
    (bl : Option Baseline) (ds : Dataset) (nm : Option String) (L : List Case)
    (st0 : RunRec) (n : Nat) (stN : RunRec) (savesN : List RunRec)
    (s : RunSummary) (saves : List RunRec)
    (hperm : ∀ l, (sched l).Perm l)
    (h0 : st0.results = [])
    (hnodup : (L.map (fun x => x.id.getD gid)).Nodup)
    (hn : n ≤ L.length)
    (hloop : Boba.par_loop gid agent judge_fn mc st0 0 (L.take n) = Except.ok (stN, savesN))
    (hrun : Boba.run_exec gid sched fn bl agent judge_fn mc ds nm L true =
      Except.ok (s, saves)) :
    n - n % SAVE_INTERVAL ≤ ((savesN.getLastD st0).results).length ∧
    ((saves.getLastD st0).results).length = s.total ∧ s.total = L.length := by
  refine ⟨?_, ?_⟩
  · have hb := par_loop_persisted_bound gid agent judge_fn mc L n st0 st0 0 stN savesN hn
      hnodup (fun x _ => by rw [h0]; simp) (by rw [h0]; rfl) (by simp) hloop
    simpa using hb
  · simp only [Boba.run_exec] at hrun
    split at hrun
    · exact absurd hrun (by simp)
    · rename_i st lsv heq
      simp only [Except.ok.injEq, Prod.mk.injEq] at hrun
      obtain ⟨rfl, rfl⟩ := hrun
      rw [if_pos trivial] at heq
      split at heq
      · exact absurd heq (by simp)
      · rename_i st2 lsv2 heq2
        simp only [Except.ok.injEq, Prod.mk.injEq] at heq
        obtain ⟨rfl, rfl⟩ := heq
        have hnodup2 : ((sched L).map (fun x => x.id.getD gid)).Nodup :=
          (((hperm L).map (fun x => x.id.getD gid)).nodup_iff).mpr hnodup
        have hlen := par_loop_results_len gid agent judge_fn mc (sched L) _ 0 _ _ hnodup2
          (fun x _ => by simp) heq2
        refine ⟨?_, rfl⟩
        rw [getLastD_append]
        simp [List.getLastD_cons, List.getLastD_nil, hlen, (hperm L).length_eq]



set_option maxHeartbeats 1000000 in
/-- C9 witness: the durability theorem applied at the six-case parallel run
crashed immediately after the fifth completion. -/
theorem c9_witness :
    5 - 5 % SAVE_INTERVAL ≤
      (((six_loop.toOption.getD default).2.getLastD default).results).length :=
  (c9_crash_durability_bound "g" six_agent six_judge none id "f" none
      { id := "i", name := "n", cases := [] } none six_cases default 5
      (six_loop.toOption.getD default).1 (six_loop.toOption.getD default).2
      (six_run.toOption.getD default).1 (six_run.toOption.getD default).2
      (fun l => List.Perm.refl l) rfl (by decide) (by decide) rfl rfl).1
